import Mathlib

/-!
Shallow embedding of `src/schema.rs` of the `tetanizer` repository: the
document schema (`MessageSchema::build`), the media classifier
(`MessageMediaType::is_in_message` and the mime helpers) and the document
mapper (`MessageSchema::parse_message`).

Machine integers (`u64` ids) are modelled as `Nat`: the code performs no
arithmetic on them, only copies, so overflow never matters.  Strings are
Lean `String`s.  The tantivy `Document` is a list of (field, value) pairs
in the order the code adds them, exactly as tantivy's `Document` is a
`Vec<FieldValue>` that `add_*` pushes onto.
-/

namespace Tetanizer

/-- A serenity `User`; only the id is read by the mapper (`user.id.0`). -/
structure User where
  id : Nat
deriving DecidableEq

/-- A serenity `Attachment`; only `content_type : Option<String>` is read. -/
structure Attachment where
  content_type : Option String
deriving DecidableEq

/-- A serenity `EmbedField` (`name`, `value`, both strings). -/
structure EmbedField where
  name : String
  value : String
deriving DecidableEq

/-- A serenity `EmbedAuthor`; only `name` is read. -/
structure EmbedAuthor where
  name : String
deriving DecidableEq

/-- A serenity `EmbedFooter`; only `text` is read. -/
structure EmbedFooter where
  text : String
deriving DecidableEq

/-- A serenity `Embed`, restricted to the sub-fields `parse_message` reads:
`author`, `description`, `fields`, `footer`, `title`. -/
structure Embed where
  author : Option EmbedAuthor
  description : Option String
  fields : List EmbedField
  footer : Option EmbedFooter
  title : Option String
deriving DecidableEq

/-- A serenity `StickerItem`; `parse_message` only tests emptiness of the
`sticker_items` list, so the payload is irrelevant. -/
structure StickerItem where
  id : Nat
deriving DecidableEq

/-- A serenity `Timestamp` (a wrapper around `time::OffsetDateTime`): an
instant `secs + subsecNanos / 10^9` seconds from the Unix epoch, with the
whole-second part `secs` and the sub-second nanoseconds `subsecNanos`
(`0 ≤ subsecNanos < 10^9`) stored separately, which is how
`OffsetDateTime` exposes it (`unix_timestamp` vs `nanosecond`). -/
structure Timestamp where
  secs : Int
  subsecNanos : Nat
deriving DecidableEq

/-- `time::OffsetDateTime::unix_timestamp`: the whole-second part only;
sub-second nanoseconds are discarded. -/
def Timestamp.unix_timestamp (t : Timestamp) : Int := t.secs

/-- tantivy's `DateTime`: an instant stored as nanoseconds from the epoch. -/
structure DateTime where
  nanos : Int
deriving DecidableEq

/-- `tantivy::DateTime::from_timestamp_secs`. -/
def DateTime.from_timestamp_secs (s : Int) : DateTime := ⟨s * 1000000000⟩

/-- A serenity `Message`, restricted to the fields `schema.rs` reads. -/
structure Message where
  id : Nat
  author : User
  channel_id : Nat
  content : String
  timestamp : Timestamp
  pinned : Bool
  embeds : List Embed
  attachments : List Attachment
  mentions : List User
  mention_roles : List Nat
  sticker_items : List StickerItem
deriving DecidableEq

/-- Rust's `str::starts_with` on strings, char by char. -/
def strStartsWith (t pat : String) : Bool :=
  pat.data.isPrefixOf t.data

/-- `is_mime_type` (schema.rs:7-12): the attachment's content type, when
present, starts with `mime_type`; an absent content type matches nothing. -/
def is_mime_type (attachment : Attachment) (mime_type : String) : Bool :=
  match attachment.content_type with
  | some t => strStartsWith t mime_type
  | none => false

/-- `has_mime_type` (schema.rs:14-19): some attachment matches. -/
def has_mime_type (message : Message) (mime_type : String) : Bool :=
  message.attachments.any (fun a => is_mime_type a mime_type)

/-- `MessageMediaType` (schema.rs:21-31), in declaration order. -/
inductive MessageMediaType where
  | link
  | embed
  | file
  | video
  | image
  | sound
  | sticker
deriving DecidableEq

/-- The strum `Display` impl with `serialize_all = "snake_case"`: each
variant's snake-case name. -/
def MessageMediaType.toStr : MessageMediaType → String
  | .link => "link"
  | .embed => "embed"
  | .file => "file"
  | .video => "video"
  | .image => "image"
  | .sound => "sound"
  | .sticker => "sticker"

/-- The strum `EnumIter` impl: variants in declaration order. -/
def mediaTypeIter : List MessageMediaType :=
  [.link, .embed, .file, .video, .image, .sound, .sticker]

/-- `needle` starts at some position of `haystack` (both as char lists). -/
def subCheck (needle : List Char) : List Char → Bool
  | [] => needle.isEmpty
  | c :: rest => needle.isPrefixOf (c :: rest) || subCheck needle rest

/-- `needle` occurs in `haystack` as a contiguous substring. -/
def strContainsSub (haystack needle : String) : Bool :=
  subCheck needle.data haystack.data

/-- `LINK_RE.is_match` for the regex `https?://` (schema.rs:36): the regex
matches at some position iff the text at that position starts with
`"http://"` or `"https://"`, so the whole match test is exactly: the
content contains `"http://"` or `"https://"` as a substring. -/
def linkReIsMatch (content : String) : Bool :=
  strContainsSub content "http://" || strContainsSub content "https://"

/-- `MessageMediaType::is_in_message` (schema.rs:34-47). -/
def MessageMediaType.is_in_message (t : MessageMediaType) (message : Message) : Bool :=
  match t with
  | .link => linkReIsMatch message.content
  | .embed => !message.embeds.isEmpty
  | .file => !message.attachments.isEmpty
  | .video => has_mime_type message "video"
  | .image => has_mime_type message "image"
  | .sound => has_mime_type message "audio"
  | .sticker => !message.sticker_items.isEmpty

/-! ## The schema (`MessageSchema::build`, schema.rs:74-104)

tantivy's `SchemaBuilder` assigns field ids `0, 1, 2, ...` in the order
of the `add_*` calls; `STORED`, `INDEXED`, `FAST` are the flags, and for
text fields `TEXT` means indexed with the default tokenizer (tokenized)
while `STRING` means indexed with the raw tokenizer (untokenized exact
match); neither is stored unless `| STORED` is added. -/

/-- The value type of a schema field. -/
inductive FieldTypeKind where
  | u64
  | text
  | date
  | boolean
deriving DecidableEq

/-- One tantivy field entry: name, type, and capability flags.
`tokenized` is meaningful for text fields only: `TEXT` sets it, `STRING`
(raw tokenizer, exact match) does not. -/
structure FieldEntry where
  name : String
  kind : FieldTypeKind
  indexed : Bool
  stored : Bool
  fast : Bool
  tokenized : Bool
deriving DecidableEq

/-- `MessageSchema::build` (schema.rs:75-104): the ten `add_*_field`
calls in source order, with their option flags. -/
def buildFields : List FieldEntry :=
  [ ⟨"id", .u64, false, true, false, false⟩,
    ⟨"author_id", .u64, true, false, false, false⟩,
    ⟨"channel_id", .u64, true, false, true, false⟩,
    ⟨"content", .text, true, true, false, true⟩,
    ⟨"timestamp", .date, true, false, false, false⟩,
    ⟨"pinned", .boolean, true, false, false, false⟩,
    ⟨"embed_content", .text, true, false, false, true⟩,
    ⟨"mention_user_id", .u64, true, false, false, false⟩,
    ⟨"mention_role_id", .u64, true, false, false, false⟩,
    ⟨"has", .text, true, false, false, false⟩ ]

/- The field handles handed out by the builder: the index of each
`add_*_field` call, in source order. -/
namespace Fields

def id : Nat := 0
def author_id : Nat := 1
def channel_id : Nat := 2
def content : Nat := 3
def timestamp : Nat := 4
def pinned : Nat := 5
def embed_content : Nat := 6
def mention_user_id : Nat := 7
def mention_role_id : Nat := 8
def has : Nat := 9

end Fields

/-- A value written into a tantivy document. -/
inductive Value where
  | u64 (n : Nat)
  | str (s : String)
  | date (d : DateTime)
  | boolean (b : Bool)
deriving DecidableEq

/-- A tantivy `Document`: the `Vec<FieldValue>` the `add_*` methods push
onto, in push order. -/
abbrev Document := List (Nat × Value)

/-- `MessageSchema::add_embed_content` (schema.rs:155-159): append the
value when present, do nothing when absent.  There is no emptiness test:
`Some("")` is appended like any other present value. -/
def add_embed_content (doc : Document) (content_opt : Option String) : Document :=
  match content_opt with
  | some content => doc ++ [(Fields.embed_content, Value.str content)]
  | none => doc

/-- `MessageSchema::parse_message` (schema.rs:106-145), with each Rust
`for` loop rendered as a `foldl` over the document being built. -/
def parse_message (m : Message) : Document :=
  let doc : Document :=
    [ (Fields.id, Value.u64 m.id),
      (Fields.author_id, Value.u64 m.author.id),
      (Fields.channel_id, Value.u64 m.channel_id),
      (Fields.content, Value.str m.content),
      (Fields.timestamp, Value.date (DateTime.from_timestamp_secs m.timestamp.unix_timestamp)),
      (Fields.pinned, Value.boolean m.pinned) ]
  let doc := m.embeds.foldl (fun d e =>
    let d := add_embed_content d (e.author.map EmbedAuthor.name)
    let d := add_embed_content d e.description
    let d := e.fields.foldl (fun d f =>
      add_embed_content (add_embed_content d (some f.name)) (some f.value)) d
    let d := add_embed_content d (e.footer.map EmbedFooter.text)
    add_embed_content d e.title) doc
  let doc := m.mentions.foldl (fun d u => d ++ [(Fields.mention_user_id, Value.u64 u.id)]) doc
  let doc := m.mention_roles.foldl (fun d r => d ++ [(Fields.mention_role_id, Value.u64 r)]) doc
  let doc := mediaTypeIter.foldl (fun d t =>
    if t.is_in_message m then d ++ [(Fields.has, Value.str t.toStr)] else d) doc
  doc

/-- The values a document holds under field `f`, in write order. -/
def fieldValues (doc : Document) (f : Nat) : List Value :=
  (doc.filter (fun p => p.1 == f)).map Prod.snd

/-! ## Normal form of `parse_message`

`parse_message` builds the document by appending; the lemmas below
rewrite it as explicit concatenation of one block per source loop. -/

/-- A present optional value as a zero-or-one element list. -/
def optToList : Option String → List String
  | some s => [s]
  | none => []

/-- The texts one embed contributes, in source order (schema.rs:118-128):
author name, description, each field's name then value, footer text,
title; absent sub-fields contribute nothing. -/
def embedTexts (e : Embed) : List String :=
  optToList (e.author.map EmbedAuthor.name)
    ++ optToList e.description
    ++ (e.fields.map (fun f => [f.name, f.value])).flatten
    ++ optToList (e.footer.map EmbedFooter.text)
    ++ optToList e.title

/-- The six scalar writes of the `doc!` block (schema.rs:108-116). -/
def scalarPart (m : Message) : Document :=
  [ (Fields.id, Value.u64 m.id),
    (Fields.author_id, Value.u64 m.author.id),
    (Fields.channel_id, Value.u64 m.channel_id),
    (Fields.content, Value.str m.content),
    (Fields.timestamp, Value.date (DateTime.from_timestamp_secs m.timestamp.unix_timestamp)),
    (Fields.pinned, Value.boolean m.pinned) ]

/-- The `embed_content` writes of one embed. -/
def embedDoc (e : Embed) : Document :=
  (embedTexts e).map (fun s => (Fields.embed_content, Value.str s))

/-- All `embed_content` writes (schema.rs:118-128). -/
def embedPart (m : Message) : Document :=
  (m.embeds.map embedDoc).flatten

/-- The `mention_user_id` writes (schema.rs:130-132). -/
def userPart (m : Message) : Document :=
  m.mentions.map (fun u => (Fields.mention_user_id, Value.u64 u.id))

/-- The `mention_role_id` writes (schema.rs:134-136). -/
def rolePart (m : Message) : Document :=
  m.mention_roles.map (fun r => (Fields.mention_role_id, Value.u64 r))

/-- The `has` writes (schema.rs:138-142): the matching media types, in
enumeration order, under their snake-case names. -/
def hasPart (m : Message) : Document :=
  (mediaTypeIter.filter (fun t => t.is_in_message m)).map
    (fun t => (Fields.has, Value.str t.toStr))

/-- The §4.1 field table transliterated from the spec's words: name,
type, and flags of each row, in table order — `stored only`,
`indexed`, `indexed + fast`, `tokenized text`, `exact-match untokenized
text`, `indexed + stored`, `indexed only`. -/
def specFieldTable : List FieldEntry :=
  [ ⟨"id", .u64, false, true, false, false⟩,
    ⟨"author_id", .u64, true, false, false, false⟩,
    ⟨"channel_id", .u64, true, false, true, false⟩,
    ⟨"content", .text, true, true, false, true⟩,
    ⟨"timestamp", .date, true, false, false, false⟩,
    ⟨"pinned", .boolean, true, false, false, false⟩,
    ⟨"embed_content", .text, true, false, false, true⟩,
    ⟨"mention_user_id", .u64, true, false, false, false⟩,
    ⟨"mention_role_id", .u64, true, false, false, false⟩,
    ⟨"has", .text, true, false, false, false⟩ ]

/-! Concrete messages used to instantiate the theorems below. -/

/-- A plain message: no embeds, attachments, mentions or stickers. -/
def msgPlain : Message := ⟨1, ⟨2⟩, 3, "hello", ⟨0, 0⟩, false, [], [], [], [], []⟩

/-- One embed holding only a title and one (name, value) field. -/
def msgOneEmbed : Message :=
  ⟨1, ⟨2⟩, 3, "", ⟨0, 0⟩, false,
    [⟨none, none, [⟨"n", "v"⟩], none, some "t"⟩], [], [], [], []⟩

/-- One embed whose description is present but equal to the empty string. -/
def msgEmptyDesc : Message :=
  ⟨1, ⟨2⟩, 3, "", ⟨0, 0⟩, false,
    [⟨none, some "", [], none, none⟩], [], [], [], []⟩

/-- One attachment with content type `video/mp4`. -/
def msgVideoAtt : Message :=
  ⟨1, ⟨2⟩, 3, "", ⟨0, 0⟩, false, [], [⟨some "video/mp4"⟩], [], [], []⟩

/-- One attachment with content type `application/pdf`. -/
def msgPdfAtt : Message :=
  ⟨1, ⟨2⟩, 3, "", ⟨0, 0⟩, false, [], [⟨some "application/pdf"⟩], [], [], []⟩

/-- A left fold whose body appends a block per element appends the
concatenation of the blocks. -/
theorem foldl_extend {α β : Type} (g : α → List β) (f : List β → α → List β)
    (h : ∀ d x, f d x = d ++ g x) :
    ∀ (l : List α) (init : List β), l.foldl f init = init ++ (l.map g).flatten := by
  intro l
  induction l with
  | nil => intro init; simp
  | cons x xs ih =>
    intro init
    rw [List.foldl_cons, h, ih, List.map_cons, List.flatten_cons, List.append_assoc]

theorem flatten_map_singleton {α β : Type} (h : α → β) (l : List α) :
    (l.map (fun x => [h x])).flatten = l.map h := by
  induction l <;> simp_all

theorem flatten_map_ite {α β : Type} (p : α → Bool) (v : α → β) (l : List α) :
    (l.map (fun x => if p x then [v x] else [])).flatten = (l.filter p).map v := by
  induction l with
  | nil => simp
  | cons x xs ih => by_cases h : p x <;> simp [List.filter_cons, h, ih]

theorem add_embed_content_eq (d : Document) (c : Option String) :
    add_embed_content d c
      = d ++ (optToList c).map (fun s => (Fields.embed_content, Value.str s)) := by
  cases c <;> simp [add_embed_content, optToList]

/-- `parse_message` in normal form: the concatenation of the five blocks,
in source order. -/
theorem parse_message_eq (m : Message) :
    parse_message m
      = scalarPart m ++ embedPart m ++ userPart m ++ rolePart m ++ hasPart m := by
  unfold parse_message
  dsimp only
  rw [foldl_extend embedDoc _ ?hembed,
      foldl_extend (fun u : User => [(Fields.mention_user_id, Value.u64 u.id)]) _ ?huser,
      foldl_extend (fun r : Nat => [(Fields.mention_role_id, Value.u64 r)]) _ ?hrole,
      foldl_extend (fun t : MessageMediaType =>
        if t.is_in_message m then [(Fields.has, Value.str t.toStr)] else []) _ ?hhas]
  case hembed =>
    intro d e
    rw [foldl_extend (fun f : EmbedField =>
          [(Fields.embed_content, Value.str f.name),
           (Fields.embed_content, Value.str f.value)]) _ ?hfield]
    case hfield => intro d f; simp [add_embed_content]
    simp only [add_embed_content_eq, embedDoc, embedTexts, List.map_append,
      List.append_assoc, List.map_flatten, List.map_map]
    rfl
  case huser => intro d u; rfl
  case hrole => intro d r; rfl
  case hhas =>
    intro d t
    by_cases h : t.is_in_message m = true <;> simp [h]
  · simp only [flatten_map_singleton, flatten_map_ite]
    rfl

theorem fieldValues_append (a b : Document) (f : Nat) :
    fieldValues (a ++ b) f = fieldValues a f ++ fieldValues b f := by
  simp [fieldValues, List.filter_append]

theorem fieldValues_map_pair {β : Type} (k f : Nat) (h : β → Value) (l : List β) :
    fieldValues (l.map (fun b => (k, h b))) f = if k = f then l.map h else [] := by
  induction l with
  | nil => simp [fieldValues]
  | cons b bs ih =>
    by_cases hk : k = f <;>
      simp_all [fieldValues, List.filter_cons]

theorem fieldValues_flatten (L : List Document) (f : Nat) :
    fieldValues L.flatten f = (L.map (fun d => fieldValues d f)).flatten := by
  induction L with
  | nil => simp [fieldValues]
  | cons d ds ih => simp [fieldValues_append, ih]

/-! ## The values of each field of a parsed message -/

theorem flatten_map_nil {α β : Type} (l : List α) :
    (l.map (fun _ => ([] : List β))).flatten = [] := by
  induction l <;> simp_all

theorem fieldValues_embedDoc (e : Embed) (f : Nat) :
    fieldValues (embedDoc e) f
      = if Fields.embed_content = f then (embedTexts e).map Value.str else [] := by
  rw [embedDoc, fieldValues_map_pair]

theorem fieldValues_embedPart (m : Message) (f : Nat) :
    fieldValues (embedPart m) f
      = (m.embeds.map (fun e => fieldValues (embedDoc e) f)).flatten := by
  rw [embedPart, fieldValues_flatten, List.map_map]
  rfl

theorem fv_id (m : Message) :
    fieldValues (parse_message m) Fields.id = [Value.u64 m.id] := by
  rw [parse_message_eq]
  simp [fieldValues_append, fieldValues_embedPart, fieldValues_embedDoc, userPart,
    rolePart, hasPart, fieldValues_map_pair, flatten_map_nil,
    Fields.id, Fields.embed_content,
    Fields.mention_user_id, Fields.mention_role_id, Fields.has]
  rfl

theorem fv_author_id (m : Message) :
    fieldValues (parse_message m) Fields.author_id = [Value.u64 m.author.id] := by
  rw [parse_message_eq]
  simp [fieldValues_append, fieldValues_embedPart, fieldValues_embedDoc, userPart,
    rolePart, hasPart, fieldValues_map_pair, flatten_map_nil,
    Fields.author_id, Fields.embed_content,
    Fields.mention_user_id, Fields.mention_role_id, Fields.has]
  rfl

theorem fv_channel_id (m : Message) :
    fieldValues (parse_message m) Fields.channel_id = [Value.u64 m.channel_id] := by
  rw [parse_message_eq]
  simp [fieldValues_append, fieldValues_embedPart, fieldValues_embedDoc, userPart,
    rolePart, hasPart, fieldValues_map_pair, flatten_map_nil,
    Fields.channel_id, Fields.embed_content,
    Fields.mention_user_id, Fields.mention_role_id, Fields.has]
  rfl

theorem fv_content (m : Message) :
    fieldValues (parse_message m) Fields.content = [Value.str m.content] := by
  rw [parse_message_eq]
  simp [fieldValues_append, fieldValues_embedPart, fieldValues_embedDoc, userPart,
    rolePart, hasPart, fieldValues_map_pair, flatten_map_nil,
    Fields.content, Fields.embed_content,
    Fields.mention_user_id, Fields.mention_role_id, Fields.has]
  rfl

theorem fv_timestamp (m : Message) :
    fieldValues (parse_message m) Fields.timestamp
      = [Value.date (DateTime.from_timestamp_secs m.timestamp.unix_timestamp)] := by
  rw [parse_message_eq]
  simp [fieldValues_append, fieldValues_embedPart, fieldValues_embedDoc, userPart,
    rolePart, hasPart, fieldValues_map_pair, flatten_map_nil,
    Fields.timestamp, Fields.embed_content,
    Fields.mention_user_id, Fields.mention_role_id, Fields.has]
  rfl

theorem fv_pinned (m : Message) :
    fieldValues (parse_message m) Fields.pinned = [Value.boolean m.pinned] := by
  rw [parse_message_eq]
  simp [fieldValues_append, fieldValues_embedPart, fieldValues_embedDoc, userPart,
    rolePart, hasPart, fieldValues_map_pair, flatten_map_nil,
    Fields.pinned, Fields.embed_content,
    Fields.mention_user_id, Fields.mention_role_id, Fields.has]
  rfl

theorem fv_embed_content (m : Message) :
    fieldValues (parse_message m) Fields.embed_content
      = (m.embeds.map (fun e => (embedTexts e).map Value.str)).flatten := by
  rw [parse_message_eq]
  simp [fieldValues_append, fieldValues_embedPart, fieldValues_embedDoc, userPart,
    rolePart, hasPart, fieldValues_map_pair, flatten_map_nil,
    Fields.embed_content,
    Fields.mention_user_id, Fields.mention_role_id, Fields.has]
  rfl

theorem fv_mention_user_id (m : Message) :
    fieldValues (parse_message m) Fields.mention_user_id
      = m.mentions.map (fun u => Value.u64 u.id) := by
  rw [parse_message_eq]
  simp [fieldValues_append, fieldValues_embedPart, fieldValues_embedDoc, userPart,
    rolePart, hasPart, fieldValues_map_pair, flatten_map_nil,
    Fields.embed_content,
    Fields.mention_user_id, Fields.mention_role_id, Fields.has]
  rfl

theorem fv_mention_role_id (m : Message) :
    fieldValues (parse_message m) Fields.mention_role_id
      = m.mention_roles.map (fun r => Value.u64 r) := by
  rw [parse_message_eq]
  simp [fieldValues_append, fieldValues_embedPart, fieldValues_embedDoc, userPart,
    rolePart, hasPart, fieldValues_map_pair, flatten_map_nil,
    Fields.embed_content,
    Fields.mention_user_id, Fields.mention_role_id, Fields.has]
  rfl

theorem fv_has (m : Message) :
    fieldValues (parse_message m) Fields.has
      = (mediaTypeIter.filter (fun t => t.is_in_message m)).map
          (fun t => Value.str t.toStr) := by
  rw [parse_message_eq]
  simp [fieldValues_append, fieldValues_embedPart, fieldValues_embedDoc, userPart,
    rolePart, hasPart, fieldValues_map_pair, flatten_map_nil,
    Fields.embed_content,
    Fields.mention_user_id, Fields.mention_role_id, Fields.has]
  rfl

theorem toStr_inj (a b : MessageMediaType) (h : a.toStr = b.toStr) : a = b := by
  revert h
  cases a <;> cases b <;> decide

theorem mem_mediaTypeIter (t : MessageMediaType) : t ∈ mediaTypeIter := by
  cases t <;> simp [mediaTypeIter]

/-- A media type name appears among the `has` values exactly when its
classifier accepts the message. -/
theorem mem_hasValues (m : Message) (t : MessageMediaType) :
    Value.str t.toStr ∈ fieldValues (parse_message m) Fields.has
      ↔ t.is_in_message m = true := by
  rw [fv_has]
  simp only [List.mem_map, List.mem_filter, Value.str.injEq]
  constructor
  · rintro ⟨u, ⟨-, hu⟩, hequ⟩
    rwa [toStr_inj u t hequ] at hu
  · intro h
    exact ⟨t, ⟨mem_mediaTypeIter t, h⟩, rfl⟩

theorem is_mime_type_iff (a : Attachment) (s : String) :
    is_mime_type a s = true
      ↔ ∃ t, a.content_type = some t ∧ strStartsWith t s = true := by
  obtain ⟨ct⟩ := a
  cases ct <;> simp [is_mime_type]

/-! ## The claims -/

/-- C1: the produced document's `has` field holds exactly the matching
media categories, appended in the fixed enumeration order Link, Embed,
File, Video, Image, Sound, Sticker under their lowercase names; in
particular it contains `"link"` iff the content contains `"http://"` or
`"https://"` as a substring, `"embed"` iff the embed list is non-empty,
`"file"` iff the attachment list is non-empty, and `"sticker"` iff the
sticker list is non-empty. -/
theorem hasField_spec (m : Message) :
    fieldValues (parse_message m) Fields.has
        = (mediaTypeIter.filter (fun t => t.is_in_message m)).map
            (fun t => Value.str t.toStr)
      ∧ (Value.str "link" ∈ fieldValues (parse_message m) Fields.has
          ↔ (strContainsSub m.content "http://" = true
              ∨ strContainsSub m.content "https://" = true))
      ∧ (Value.str "embed" ∈ fieldValues (parse_message m) Fields.has
          ↔ m.embeds ≠ [])
      ∧ (Value.str "file" ∈ fieldValues (parse_message m) Fields.has
          ↔ m.attachments ≠ [])
      ∧ (Value.str "sticker" ∈ fieldValues (parse_message m) Fields.has
          ↔ m.sticker_items ≠ []) := by
  refine ⟨fv_has m, ?_, ?_, ?_, ?_⟩
  · exact (mem_hasValues m .link).trans
      (by simp [MessageMediaType.is_in_message, linkReIsMatch])
  · exact (mem_hasValues m .embed).trans
      (by simp [MessageMediaType.is_in_message])
  · exact (mem_hasValues m .file).trans
      (by simp [MessageMediaType.is_in_message])
  · exact (mem_hasValues m .sticker).trans
      (by simp [MessageMediaType.is_in_message])

/-- C1 instance: a message with no media in it has no `has` values. -/
theorem hasField_spec_witness :
    fieldValues (parse_message msgPlain) Fields.has
      = (mediaTypeIter.filter (fun t => t.is_in_message msgPlain)).map
          (fun t => Value.str t.toStr) :=
  (hasField_spec msgPlain).1

/-- C5: the six single-valued scalar fields are written exactly once
each, directly from the message; the timestamp value is the whole-second
part of the message timestamp scaled to nanoseconds, so sub-second
precision is truncated away. -/
theorem scalarFields_spec (m : Message) :
    fieldValues (parse_message m) Fields.id = [Value.u64 m.id]
      ∧ fieldValues (parse_message m) Fields.author_id = [Value.u64 m.author.id]
      ∧ fieldValues (parse_message m) Fields.channel_id = [Value.u64 m.channel_id]
      ∧ fieldValues (parse_message m) Fields.content = [Value.str m.content]
      ∧ fieldValues (parse_message m) Fields.timestamp
          = [Value.date ⟨m.timestamp.secs * 1000000000⟩]
      ∧ fieldValues (parse_message m) Fields.pinned = [Value.boolean m.pinned] :=
  ⟨fv_id m, fv_author_id m, fv_channel_id m, fv_content m, fv_timestamp m,
    fv_pinned m⟩

/-- C6: the built schema reproduces the spec's §4.1 field table exactly,
with no other fields. -/
theorem schema_spec : buildFields = specFieldTable := rfl

/-- C7: `mention_user_id` holds exactly one value per mentioned user and
`mention_role_id` exactly one value per mentioned role, in source order,
with no deduplication and no crossover between the two fields. -/
theorem mentionFields_spec (m : Message) :
    fieldValues (parse_message m) Fields.mention_user_id
        = m.mentions.map (fun u => Value.u64 u.id)
      ∧ fieldValues (parse_message m) Fields.mention_role_id
        = m.mention_roles.map (fun r => Value.u64 r) :=
  ⟨fv_mention_user_id m, fv_mention_role_id m⟩

/-- C9: the mapper is deterministic — equal inputs give equal documents. -/
theorem parseMessage_deterministic (m1 m2 : Message) (h : m1 = m2) :
    parse_message m1 = parse_message m2 := by
  rw [h]

/-- C9 instance at a concrete message. -/
theorem parseMessage_deterministic_witness :
    parse_message msgPlain = parse_message msgPlain :=
  parseMessage_deterministic msgPlain msgPlain rfl

/-- C2: `has` contains `"video"`/`"image"`/`"sound"` iff some
attachment's content type starts with `"video"`/`"image"`/`"audio"`
respectively; an attachment with no content type matches none of the
three; a `"application/pdf"` attachment matches none of the three but
still makes `has` contain `"file"`. -/
theorem mimeHas_spec (m : Message) :
    (Value.str "video" ∈ fieldValues (parse_message m) Fields.has
        ↔ ∃ a ∈ m.attachments, ∃ t, a.content_type = some t
            ∧ strStartsWith t "video" = true)
      ∧ (Value.str "image" ∈ fieldValues (parse_message m) Fields.has
          ↔ ∃ a ∈ m.attachments, ∃ t, a.content_type = some t
              ∧ strStartsWith t "image" = true)
      ∧ (Value.str "sound" ∈ fieldValues (parse_message m) Fields.has
          ↔ ∃ a ∈ m.attachments, ∃ t, a.content_type = some t
              ∧ strStartsWith t "audio" = true)
      ∧ (∀ s, is_mime_type ⟨none⟩ s = false)
      ∧ (∀ a, a ∈ m.attachments → a.content_type = some "application/pdf" →
            is_mime_type a "video" = false ∧ is_mime_type a "image" = false
              ∧ is_mime_type a "audio" = false)
      ∧ ((∃ a, a ∈ m.attachments ∧ a.content_type = some "application/pdf")
          → Value.str "file" ∈ fieldValues (parse_message m) Fields.has) := by
  refine ⟨?_, ?_, ?_, ?_, ?_, ?_⟩
  · exact (mem_hasValues m .video).trans (by
      simp [MessageMediaType.is_in_message, has_mime_type, List.any_eq_true,
        is_mime_type_iff])
  · exact (mem_hasValues m .image).trans (by
      simp [MessageMediaType.is_in_message, has_mime_type, List.any_eq_true,
        is_mime_type_iff])
  · exact (mem_hasValues m .sound).trans (by
      simp [MessageMediaType.is_in_message, has_mime_type, List.any_eq_true,
        is_mime_type_iff])
  · intro s
    rfl
  · intro a ha hct
    obtain ⟨ct⟩ := a
    cases hct
    refine ⟨?_, ?_, ?_⟩ <;> decide
  · rintro ⟨a, ha, -⟩
    refine (mem_hasValues m .file).2 ?_
    cases hatt : m.attachments with
    | nil => rw [hatt] at ha; cases ha
    | cons b bs => simp [MessageMediaType.is_in_message, hatt]

/-- C2 instance: a single `application/pdf` attachment yields `"file"`. -/
theorem mimeHas_spec_witness :
    Value.str "file" ∈ fieldValues (parse_message msgPdfAtt) Fields.has :=
  (mimeHas_spec msgPdfAtt).2.2.2.2.2 ⟨⟨some "application/pdf"⟩, by decide, rfl⟩

/-- C3: `embed_content` holds, embed by embed, one value per present
sub-field in the fixed order author name, description, each field's name
then value, footer text, title; in particular one embed with one (name,
value) field and a title and nothing else gives exactly the three values
name, value, title. -/
theorem embedContent_spec (m : Message) :
    fieldValues (parse_message m) Fields.embed_content
        = (m.embeds.map (fun e => (embedTexts e).map Value.str)).flatten
      ∧ ∀ (n v t : String),
          m.embeds = [⟨none, none, [⟨n, v⟩], none, some t⟩] →
            fieldValues (parse_message m) Fields.embed_content
              = [Value.str n, Value.str v, Value.str t] := by
  refine ⟨fv_embed_content m, ?_⟩
  intro n v t h
  rw [fv_embed_content, h]
  simp [embedTexts, optToList]

/-- C3 instance: the one-embed message gives exactly three values. -/
theorem embedContent_spec_witness :
    fieldValues (parse_message msgOneEmbed) Fields.embed_content
      = [Value.str "n", Value.str "v", Value.str "t"] :=
  (embedContent_spec msgOneEmbed).2 "n" "v" "t" rfl

/-- C4 counterexample: an embed whose description is present but equal
to the empty string contributes one (empty) `embed_content` value, so
present-but-empty sub-fields are not filtered out as the claim states. -/
theorem emptyDesc_cex :
    fieldValues (parse_message msgEmptyDesc) Fields.embed_content
        = [Value.str ""]
      ∧ fieldValues (parse_message msgEmptyDesc) Fields.embed_content ≠ [] := by
  constructor <;> decide

/-- C4 amended: present sub-fields are appended verbatim, with no
emptiness filter — a present empty-string description contributes one
empty-string `embed_content` value; only absent sub-fields are skipped. -/
theorem emptyDesc_amended (m : Message) (s : String) (e : Embed)
    (he : e ∈ m.embeds) (hd : e.description = some s) :
    Value.str s ∈ fieldValues (parse_message m) Fields.embed_content := by
  rw [fv_embed_content]
  have hs : s ∈ embedTexts e := by
    simp [embedTexts, hd, optToList]
  simp only [List.mem_flatten, List.mem_map]
  exact ⟨(embedTexts e).map Value.str, ⟨e, he, rfl⟩, List.mem_map_of_mem _ hs⟩

/-- C4 amended instance at the empty-description message. -/
theorem emptyDesc_amended_witness :
    Value.str "" ∈ fieldValues (parse_message msgEmptyDesc) Fields.embed_content :=
  emptyDesc_amended msgEmptyDesc "" ⟨none, some "", [], none, none⟩ (by decide) rfl

/-- C8: the mapper is total — on every message it returns the completed
document (the five blocks in order), and each single-valued scalar field
is populated exactly once; there is no error path in the embedding's
type. -/
theorem parseMessage_total (m : Message) :
    parse_message m
        = scalarPart m ++ embedPart m ++ userPart m ++ rolePart m ++ hasPart m
      ∧ (fieldValues (parse_message m) Fields.id).length = 1
      ∧ (fieldValues (parse_message m) Fields.author_id).length = 1
      ∧ (fieldValues (parse_message m) Fields.channel_id).length = 1
      ∧ (fieldValues (parse_message m) Fields.content).length = 1
      ∧ (fieldValues (parse_message m) Fields.timestamp).length = 1
      ∧ (fieldValues (parse_message m) Fields.pinned).length = 1 := by
  refine ⟨parse_message_eq m, ?_, ?_, ?_, ?_, ?_, ?_⟩ <;>
    simp [fv_id, fv_author_id, fv_channel_id, fv_content, fv_timestamp, fv_pinned]

/-- C10: any of the three mime-based categories in `has` forces `"file"`
to be in `has` as well, since a type-matched attachment means the
attachment list is non-empty. -/
theorem mime_implies_file (m : Message)
    (h : Value.str "video" ∈ fieldValues (parse_message m) Fields.has
        ∨ Value.str "image" ∈ fieldValues (parse_message m) Fields.has
        ∨ Value.str "sound" ∈ fieldValues (parse_message m) Fields.has) :
    Value.str "file" ∈ fieldValues (parse_message m) Fields.has := by
  refine (mem_hasValues m .file).2 ?_
  have key : ∀ s, has_mime_type m s = true → m.attachments ≠ [] := by
    intro s hs
    rw [has_mime_type, List.any_eq_true] at hs
    obtain ⟨a, ha, -⟩ := hs
    exact List.ne_nil_of_mem ha
  have hne : m.attachments ≠ [] := by
    rcases h with h | h | h
    · exact key "video" ((mem_hasValues m .video).1 h)
    · exact key "image" ((mem_hasValues m .image).1 h)
    · exact key "audio" ((mem_hasValues m .sound).1 h)
  cases hatt : m.attachments with
  | nil => exact absurd hatt hne
  | cons b bs => simp [MessageMediaType.is_in_message, hatt]

/-- C10 instance: one `video/mp4` attachment yields both `"video"` and
`"file"`. -/
theorem mime_implies_file_witness :
    Value.str "file" ∈ fieldValues (parse_message msgVideoAtt) Fields.has :=
  mime_implies_file msgVideoAtt (Or.inl (by decide))

end Tetanizer
